import Mathlib

/-!
Verification of the partitioned, resumable execution pipeline of the
Cooling repository (`model/main.py`), against its natural-language
specification.

Shallow embedding conventions:
* A result table is modelled as the ordered list of its `ID_Scenario`
  column values (`read_dataframe` returns rows in insertion order, and the
  pipeline only ever inspects or concatenates that column).
* A database is a record holding the scenario-input table plus an
  `Option` slot for each of the four result tables of `DB_RESULT_TABLES`
  (`none` = the table is absent from the sqlite file).
* Python code that can raise is modelled with `Option`/`Except`.
* The database access layer (`utils/db.py`) is not part of the sources;
  where its behaviour decides a definition it is modelled from the spec
  and marked as such in the doc comment.
-/

namespace Cooling

/-- The four aggregate result tables of `DB_RESULT_TABLES` in
`model/main.py` (yearly/monthly x reference/optimization). -/
inductive ResultTable
  | RefYear
  | OptYear
  | RefMonth
  | OptMonth
deriving DecidableEq

/-- The list `DB_RESULT_TABLES`, in source order. -/
def DB_RESULT_TABLES : List ResultTable :=
  [ResultTable.RefYear, ResultTable.OptYear,
   ResultTable.RefMonth, ResultTable.OptMonth]

/-- A database: the `OperationScenario` input table (its `ID_Scenario`
column) plus the four optional result tables, each modelled as the ordered
list of scenario ids of its rows. -/
structure Database where
  inputScenarios : List Nat
  refYear : Option (List Nat)
  optYear : Option (List Nat)
  refMonth : Option (List Nat)
  optMonth : Option (List Nat)
deriving DecidableEq

/-- Look a result table up in a database (`table in db.get_table_names()`
together with `read_dataframe`). -/
def Database.getTable (db : Database) : ResultTable → Option (List Nat)
  | ResultTable.RefYear => db.refYear
  | ResultTable.OptYear => db.optYear
  | ResultTable.RefMonth => db.refMonth
  | ResultTable.OptMonth => db.optMonth

/-- Replace one result table slot of a database. -/
def Database.setTable (db : Database) : ResultTable → Option (List Nat) → Database
  | ResultTable.RefYear, t => { db with refYear := t }
  | ResultTable.OptYear, t => { db with optYear := t }
  | ResultTable.RefMonth, t => { db with refMonth := t }
  | ResultTable.OptMonth, t => { db with optMonth := t }

/-- A database with no tables at all (a freshly created empty sqlite
file, as `create_db_conn` yields for a path with no database). -/
def emptyDatabase : Database :=
  { inputScenarios := [], refYear := none, optYear := none,
    refMonth := none, optMonth := none }

/-- Helper for `get_latest_scenario_ids`: walk the given result tables in
order and collect, for each one present in the database, the scenario id
of its last row (`to_list()[-1]`).  A present table with no rows makes the
Python code raise `IndexError`; that is the `none` outcome. -/
def collect_latest_ids (db : Database) : List ResultTable → Option (List Nat)
  | [] => some []
  | rt :: rts =>
    match db.getTable rt with
    | none => collect_latest_ids db rts
    | some tbl =>
      match tbl.getLast?, collect_latest_ids db rts with
      | some v, some rest => some (v :: rest)
      | _, _ => none

/-- `get_latest_scenario_ids` of `model/main.py`: the last-row scenario id
of every present result table, in `DB_RESULT_TABLES` order. -/
def get_latest_scenario_ids (db : Database) : Option (List Nat) :=
  collect_latest_ids db DB_RESULT_TABLES

/-- `drop_until` of `model/main.py`: drop list elements until the target
value is found; keep the target and everything after it; return the empty
list when the target does not occur. -/
def drop_until (lst : List Nat) (target : Nat) : List Nat :=
  match lst with
  | [] => []
  | x :: xs => if x = target then x :: xs else drop_until xs target

/-- Python `min` over a non-empty list (on the empty list the Python
call would raise; `align_progress` only reaches it on a non-empty list,
and we return 0 there). -/
def list_min : List Nat → Nat
  | [] => 0
  | [x] => x
  | x :: y :: rest => Nat.min x (list_min (y :: rest))

/-- One SQL statement `DELETE FROM t WHERE ID_Scenario >= threshold`:
keep exactly the rows with a strictly smaller scenario id.  (The Python
code interpolates the id as a quoted literal; SQLite converts it back to
a number through the INTEGER affinity of the column, so the comparison is
numeric.) -/
def delete_rows_ge (tbl : List Nat) (threshold : Nat) : List Nat :=
  tbl.filter (fun id => decide (id < threshold))

/-- The repair loop of `align_progress`: run the DELETE against every
result table of `DB_RESULT_TABLES` that is present in the database. -/
def delete_from_result_tables (db : Database) (threshold : Nat) : Database :=
  { db with
    refYear := db.refYear.map (fun t => delete_rows_ge t threshold),
    optYear := db.optYear.map (fun t => delete_rows_ge t threshold),
    refMonth := db.refMonth.map (fun t => delete_rows_ge t threshold),
    optMonth := db.optMonth.map (fun t => delete_rows_ge t threshold) }

/-- `align_progress` of `model/main.py`.  Returns the updated scenario
queue together with the (possibly repaired) database; `none` models the
`IndexError` raised when a present result table has no rows. -/
def align_progress (initial : List Nat) (db : Database) :
    Option (List Nat × Database) :=
  match get_latest_scenario_ids db with
  | none => none
  | some latest =>
    if 0 < latest.length ∧ latest.dedup.length ≠ 1 then
      let m := list_min latest
      some (drop_until initial m, delete_from_result_tables db m)
    else
      some (initial, db)

/-! ## Task partitioner (`split_scenarios`) -/

/-- `math.ceil(total / number)` on naturals (exact ceiling division; the
Python float division is exact at the magnitudes involved). -/
def ceilDiv (a b : Nat) : Nat := (a + b - 1) / b

/-- The row filter `split_scenarios` applies to the scenario-input table
of task `k` out of `n` with chunk size `c`: every task but the last keeps
the ids in the closed range from `1 + c*(k-1)` to `c*k`; the last task
keeps every id from `1 + c*(n-1)` on. -/
def task_range_filter (ids : List Nat) (c n k : Nat) : List Nat :=
  if k < n then
    ids.filter (fun id => decide (1 + c * (k - 1) ≤ id) && decide (id ≤ c * k))
  else
    ids.filter (fun id => decide (1 + c * (n - 1) ≤ id))

/-- The scenario ids `split_scenarios` assigns to task `k` of `N` when the
canonical scenario universe is `1..T` (ids of the `OperationScenario`
table). -/
def split_task_ids (T N k : Nat) : List Nat :=
  task_range_filter (List.range' 1 T) (ceilDiv T N) N k

/-! ## Result merger (`merge_year_month_tables`) -/

/-- The inner scan of `merge_year_month_tables` for one table name: walk
the task databases in task-id order, collecting the table from each; on
the first task database lacking the table, `break` (the remaining task
databases are never looked at). -/
def scanTables (rt : ResultTable) : List Database → List (List Nat)
  | [] => []
  | db :: rest =>
    match db.getTable rt with
    | some tbl => tbl :: scanTables rt rest
    | none => []

/-- Merge step for one table name.  Modelled from the spec: the missing
database layer writes the concatenated frame so that it fully replaces
the canonical table rather than appending to it ("All found partition
tables are concatenated preserving row order, and the concatenation fully
replaces the canonical table").  `pd.concat(..., ignore_index=True)` on
our id-list model is `List.join`.  When the scan found nothing
(`table_exists` stayed false) the canonical database is untouched. -/
def mergeTable (tasks : List Database) (canonical : Database)
    (rt : ResultTable) : Database :=
  let found := scanTables rt tasks
  if found.isEmpty then canonical
  else canonical.setTable rt (some found.flatten)

/-- `merge_year_month_tables` of `model/main.py`: fold the per-table merge
step over the four result tables. -/
def merge_year_month_tables (tasks : List Database) (canonical : Database) :
    Database :=
  DB_RESULT_TABLES.foldl (mergeTable tasks) canonical

/-! ## Reuse check (`check_if_some_results_exist`) -/

/-- One task workspace as `check_if_some_results_exist` sees it: the
files of the task output folder, each recorded by its `Path.suffix` (the
last dot extension, the only attribute the scan reads), plus the database
`create_db_conn` opens for that task config. -/
structure TaskWorkspace where
  files : List String
  db : Database
deriving DecidableEq

/-- The scan condition `file.suffix == ".sqlite"`. -/
def hasSqliteSuffix (suffix : String) : Bool := suffix == ".sqlite"

/-- The booleans appended to `results_exist` while scanning one task
workspace: one `True` for every `.sqlite` file and result table present
in the task database (the nested `for` loops of the source). -/
def taskResultFlags (t : TaskWorkspace) : List Bool :=
  (t.files.filter hasSqliteSuffix).flatMap
    (fun _ => (DB_RESULT_TABLES.filter (fun rt => (t.db.getTable rt).isSome)).map
      (fun _ => true))

/-- The full `results_exist` list accumulated over all task workspaces. -/
def resultsExistList (tasks : List TaskWorkspace) : List Bool :=
  tasks.flatMap taskResultFlags

/-- `check_if_some_results_exist` of `model/main.py`.  The `multi`
argument is accepted and, as in the source, never read. -/
def check_if_some_results_exist (tasks : List TaskWorkspace) (multi : Nat) :
    Bool :=
  (resultsExistList tasks).all (fun b => b) &&
    decide (0 < (resultsExistList tasks).length)

/-! ## Cleanup (`delete_file`, `delete_result_task_folders`) -/

/-- How one file behaves under `unlink` attempts:
`lockedFor n` raises `PermissionError` on the first `n` attempts and
deletes successfully on attempt `n + 1` (a permanently locked file is
`lockedFor n` with `n` at least the attempt bound); `otherError` raises a
non-permission exception, which the source handles by giving up at
once. -/
inductive FileBehavior
  | lockedFor (n : Nat)
  | otherError
deriving DecidableEq

/-- The retry loop of `delete_file` with the given number of attempts
left.  Returns (deleted, attempts made, seconds slept); each
`PermissionError` handler sleeps one second, including on the final
attempt. -/
def delete_file_go : Nat → FileBehavior → Bool × Nat × Nat
  | 0, _ => (false, 0, 0)
  | _ + 1, FileBehavior.otherError => (false, 1, 0)
  | _ + 1, FileBehavior.lockedFor 0 => (true, 1, 0)
  | k + 1, FileBehavior.lockedFor (n + 1) =>
    let r := delete_file_go k (FileBehavior.lockedFor n)
    (r.1, r.2.1 + 1, r.2.2 + 1)

/-- `max_attempts` of `delete_file`. -/
def max_attempts : Nat := 5

/-- `delete_file` of `model/main.py`: up to 5 unlink attempts with a
fixed one-second sleep after every `PermissionError`. -/
def delete_file (b : FileBehavior) : Bool × Nat × Nat :=
  delete_file_go max_attempts b

/-- Whether `delete_file` reports the file as deleted. -/
def fileDeleted (b : FileBehavior) : Bool := (delete_file b).1

/-- A subdirectory of the canonical output folder, with the behaviour of
each file it contains. -/
structure Dir where
  name : String
  files : List FileBehavior
deriving DecidableEq

/-- The canonical output folder: its top-level files and its
subdirectories. -/
structure OutputFolder where
  topFiles : List String
  dirs : List Dir
deriving DecidableEq

/-- The per-directory body of `delete_result_task_folders`: try to delete
every file of the directory, then remove the directory when every
deletion succeeded; otherwise keep the directory (holding exactly the
files that survived) and emit the skip warning.  Result: the directory as
it remains on disk (`none` = removed) and whether the warning was
printed. -/
def processDir (d : Dir) : Option Dir × Bool :=
  let remaining := d.files.filter (fun f => !(fileDeleted f))
  if d.files.all fileDeleted then (none, false)
  else (some { d with files := remaining }, true)

/-- The per-item step of `delete_result_task_folders`: a subdirectory
named `figure` is skipped untouched, every other subdirectory goes
through `processDir`. -/
def cleanupStep (d : Dir) : Option Dir × Bool :=
  if d.name = "figure" then (some d, false) else processDir d

/-- `delete_result_task_folders` of `model/main.py`: top-level files are
skipped (`item.is_file()` continues), each subdirectory is processed.
Returns the folder as it remains plus the number of skip warnings
printed. -/
def delete_result_task_folders (folder : OutputFolder) :
    OutputFolder × Nat :=
  let results := folder.dirs.map cleanupStep
  ({ topFiles := folder.topFiles, dirs := results.filterMap Prod.fst },
   (results.filter (fun r => r.2)).length)

/-! ## Scenario runner (`run_ref_model`, `run_opt_model`,
`run_operation_model`) -/

/-- The external solver collaborators of one worker.  `refSolve` is
`RefOperationModel(scenario).solve()`, which may raise (`Except.error`);
`optSolve` is the success flag of
`OptOperationModel(scenario).solve(opt_instance)`, which reports
infeasibility through the flag instead of raising. -/
structure Collab where
  refSolve : Nat → Except String Unit
  optSolve : Nat → Bool

/-- The execution flags of one run (`run_ref`, `run_opt`, `save_year`,
`save_month`; the hourly level goes to parquet files, not to the four
database result tables, and is out of scope here). -/
structure Flags where
  run_ref : Bool
  run_opt : Bool
  save_year : Bool
  save_month : Bool
deriving DecidableEq

/-- Append one row with the given scenario id to an optional table,
creating the table on first write. -/
def appendRow (t : Option (List Nat)) (id : Nat) : Option (List Nat) :=
  some (t.getD [] ++ [id])

/-- Modelled from the spec: `RefDataCollector(...).run()` (absent from
the sources) appends one row keyed by the scenario id to each enabled
reference result table. -/
def persistRef (fl : Flags) (db : Database) (id : Nat) : Database :=
  { db with
    refYear := if fl.save_year then appendRow db.refYear id else db.refYear,
    refMonth := if fl.save_month then appendRow db.refMonth id else db.refMonth }

/-- Modelled from the spec: `OptDataCollector(...).run()` (absent from
the sources) appends one row keyed by the scenario id to each enabled
optimization result table. -/
def persistOpt (fl : Flags) (db : Database) (id : Nat) : Database :=
  { db with
    optYear := if fl.save_year then appendRow db.optYear id else db.optYear,
    optMonth := if fl.save_month then appendRow db.optMonth id else db.optMonth }

/-- `run_ref_model` of `model/main.py`: solve the reference model (an
exception propagates) and always invoke the collector on success. -/
def run_ref_model (c : Collab) (fl : Flags) (db : Database) (id : Nat) :
    Except String Database :=
  match c.refSolve id with
  | Except.error e => Except.error e
  | Except.ok _ => Except.ok (persistRef fl db id)

/-- `run_opt_model` of `model/main.py`: solve the optimization model and
invoke the collector exactly when the solve status reports success; an
unsuccessful status writes nothing and raises nothing. -/
def run_opt_model (c : Collab) (fl : Flags) (db : Database) (id : Nat) :
    Database :=
  if c.optSolve id then persistOpt fl db id else db

/-- The scenario loop of `run_operation_model`: for each scenario id run
the reference model (when enabled; an error aborts the whole loop), then
the optimization model (when enabled), then continue with the next id. -/
def run_scenarios (c : Collab) (fl : Flags) :
    List Nat → Database → Except String Database
  | [], db => Except.ok db
  | id :: rest, db =>
    match (if fl.run_ref then run_ref_model c fl db id else Except.ok db) with
    | Except.error e => Except.error e
    | Except.ok db1 =>
      run_scenarios c fl rest (if fl.run_opt then run_opt_model c fl db1 id else db1)

/-- `run_operation_model` of `model/main.py` in its parallel use (no
explicit id list): the queue is the scenario-input table of the worker
database, aligned by `align_progress`, then the scenario loop runs. -/
def run_operation_model (c : Collab) (fl : Flags) (db : Database) :
    Except String Database :=
  match align_progress db.inputScenarios db with
  | none => Except.error "IndexError"
  | some (queue, db1) => run_scenarios c fl queue db1

/-! ## The partitioned pipeline (`run_operation_model_parallel`) -/

/-- The on-disk state the pipeline manipulates: the canonical database
plus one optional task database per task folder (`none` = the task folder
holds no sqlite file, as after cleanup). -/
structure PState where
  canonical : Database
  tasks : List (Option Database)
deriving DecidableEq

/-- How `check_if_some_results_exist` sees one task folder: an existing
task database appears as the single file `<project>.sqlite`; an empty
task folder (the `mkdir` of `set_task_id` creates it) has no files. -/
def toWorkspace : Option Database → TaskWorkspace
  | none => { files := [], db := emptyDatabase }
  | some db => { files := [".sqlite"], db := db }

/-- `multiplier = sum([save_year, save_month])` of
`run_operation_model_parallel`. -/
def multiplier (fl : Flags) : Nat :=
  (if fl.save_year then 1 else 0) + (if fl.save_month then 1 else 0)

/-- `create_task_dbs` of `model/main.py`: copy the canonical sqlite file
into each of the `n` task folders. -/
def create_task_dbs (n : Nat) (st : PState) : PState :=
  { st with tasks := List.replicate n (some st.canonical) }

/-- The per-task loop of `split_scenarios`, with `k` the id of the first
task in the remaining list: replace the scenario-input table of each task
database by the filtered rows of its own copy. -/
def split_tasks_go (c n : Nat) : Nat → List (Option Database) → List (Option Database)
  | _, [] => []
  | k, odb :: rest =>
    (odb.map (fun db =>
      { db with inputScenarios := task_range_filter db.inputScenarios c n k })) ::
      split_tasks_go c n (k + 1) rest

/-- `split_scenarios` of `model/main.py`: the chunk size comes from the
row count of the canonical scenario table, then every task database keeps
only its id range. -/
def split_scenarios (n : Nat) (st : PState) : PState :=
  let c := ceilDiv st.canonical.inputScenarios.length n
  { st with tasks := split_tasks_go c n 1 st.tasks }

/-- Run every worker over its task database (the workers are
process-isolated and each touches only its own database, so the parallel
fan-out is modelled as an independent map; any worker exception aborts
the run, as `joblib.Parallel` re-raises it).  A task folder without a
database makes the worker fail when reading its input tables. -/
def run_all_tasks (c : Collab) (fl : Flags) :
    List (Option Database) → Except String (List Database)
  | [] => Except.ok []
  | none :: _ => Except.error "missing task database"
  | some db :: rest =>
    match run_operation_model c fl db with
    | Except.error e => Except.error e
    | Except.ok db1 =>
      match run_all_tasks c fl rest with
      | Except.error e => Except.error e
      | Except.ok rest1 => Except.ok (db1 :: rest1)

/-- `run_operation_model_parallel` of `model/main.py`, on the result
tables of the databases (parquet movement is orthogonal to the result
tables and omitted; the final `remove_task_folders` is modelled in its
success case, deleting every task database). -/
def run_operation_model_parallel (c : Collab) (fl : Flags) (n : Nat)
    (reset_task_dbs : Bool) (st0 : PState) : Except String PState :=
  let st :=
    if !(check_if_some_results_exist (st0.tasks.map toWorkspace) (multiplier fl))
        || reset_task_dbs then
      split_scenarios n (create_task_dbs n st0)
    else st0
  match run_all_tasks c fl st.tasks with
  | Except.error e => Except.error e
  | Except.ok tasks1 =>
    Except.ok
      { canonical := merge_year_month_tables tasks1 st.canonical,
        tasks := List.replicate n none }

/-- The canonical database of a fully merged, aligned run over the
scenario universe `1..T`: every result table holds exactly the rows
`1..T` in id order. -/
def mergedCanonical (T : Nat) : Database :=
  { inputScenarios := List.range' 1 T,
    refYear := some (List.range' 1 T),
    optYear := some (List.range' 1 T),
    refMonth := some (List.range' 1 T),
    optMonth := some (List.range' 1 T) }

/-- The on-disk state after a fully merged run followed by cleanup: the
merged canonical database and `n` empty task folders. -/
def mergedState (T n : Nat) : PState :=
  { canonical := mergedCanonical T, tasks := List.replicate n none }

/-! ## General lemmas -/

/-- The minimum of a non-empty list is one of its elements. -/
theorem list_min_mem (l : List Nat) (h : l ≠ []) : list_min l ∈ l := by
  induction l with
  | nil => exact absurd rfl h
  | cons x xs ih =>
    cases xs with
    | nil => simp [list_min]
    | cons y ys =>
      have hmem := ih (by simp)
      simp only [list_min, Nat.min_def]
      split
      · exact List.mem_cons_self _ _
      · exact List.mem_cons_of_mem _ hmem

/-- The minimum of a list bounds every element from below. -/
theorem list_min_le (l : List Nat) : ∀ x ∈ l, list_min l ≤ x := by
  induction l with
  | nil => intro x hx; simp at hx
  | cons a xs ih =>
    cases xs with
    | nil =>
      intro x hx
      have hx1 : x = a := by simpa using hx
      simp [list_min, hx1]
    | cons y ys =>
      intro x hx
      simp only [list_min]
      rcases List.mem_cons.mp hx with h1 | h2
      · exact h1 ▸ Nat.min_le_left _ _
      · exact le_trans (Nat.min_le_right _ _) (ih x h2)

/-- A non-empty list whose elements are all equal to `X` deduplicates to
`[X]`. -/
theorem dedup_of_all_eq (l : List Nat) (X : Nat) (hne : l ≠ [])
    (hall : ∀ x ∈ l, x = X) : l.dedup = [X] := by
  induction l with
  | nil => exact absurd rfl hne
  | cons a xs ih =>
    have ha : a = X := hall a (List.mem_cons_self _ _)
    cases xs with
    | nil => simp [List.dedup, ha]
    | cons y ys =>
      have hxs : (y :: ys).dedup = [X] :=
        ih (by simp) (fun x hx => hall x (List.mem_cons_of_mem _ hx))
      have hy : y = X := hall y (by simp)
      have hmem : a ∈ y :: ys := by
        rw [ha, ← hy]; exact List.mem_cons_self _ _
      rw [List.dedup_cons_of_mem hmem, hxs]

/-- The aligned (or zero-table) branch of `align_progress`: when the
latest ids deduplicate to a single value the queue and the database are
returned unchanged. -/
theorem align_progress_aligned (q : List Nat) (db : Database)
    (latest : List Nat) (hget : get_latest_scenario_ids db = some latest)
    (hone : latest.dedup.length = 1) :
    align_progress q db = some (q, db) := by
  unfold align_progress
  rw [hget]
  simp [hone]

/-- The effect of the repair DELETE on each table slot. -/
theorem getTable_delete_from_result_tables (db : Database) (m : Nat)
    (rt : ResultTable) :
    (delete_from_result_tables db m).getTable rt =
      (db.getTable rt).map (fun t => delete_rows_ge t m) := by
  cases rt <;> rfl

/-! ## Claim C1 -/

/-- The database of the C1 failing input: yearly tables for reference and
optimization both present, both ending at scenario id 2 (aligned), the
monthly tables absent; the requested queue is `[1, 2, 3]`. -/
def alignedDbC1 : Database :=
  { inputScenarios := [1, 2, 3],
    refYear := some [1, 2],
    optYear := some [1, 2],
    refMonth := none,
    optMonth := none }

/-- Claim C1 (code bug, evaluation at the failing input): with both
present result tables aligned at latest id 2 and requested queue
`[1, 2, 3]`, the specified behaviour is to resume at id 2, i.e. to return
the trimmed queue `drop_until [1, 2, 3] 2 = [2, 3]`; the code instead
takes the else-branch of `align_progress` and returns the queue untrimmed
(so an aligned resume re-executes every completed scenario, producing
exactly the double entries the repair branch exists to avoid). -/
theorem C1_aligned_resume_eval :
    get_latest_scenario_ids alignedDbC1 = some [2, 2] ∧
    align_progress [1, 2, 3] alignedDbC1 = some ([1, 2, 3], alignedDbC1) ∧
    drop_until [1, 2, 3] 2 = [2, 3] ∧
    ([1, 2, 3] : List Nat) ≠ [2, 3] := by
  refine ⟨by decide, ?_, by decide, by decide⟩
  decide

/-! ## Claim C3 -/

/-- Claim C3: with more than one distinct latest id among the present
result tables, `align_progress` deletes from every present result table
all rows with scenario id at least the minimum of the observed latest ids
and returns the requested queue trimmed to start at that minimum. -/
theorem C3_misaligned_repair (q : List Nat) (db : Database)
    (latest : List Nat) (hget : get_latest_scenario_ids db = some latest)
    (hmis : 2 ≤ latest.dedup.length) :
    align_progress q db =
      some (drop_until q (list_min latest),
            delete_from_result_tables db (list_min latest)) ∧
    list_min latest ∈ latest ∧
    (∀ x ∈ latest, list_min latest ≤ x) ∧
    (∀ rt, (delete_from_result_tables db (list_min latest)).getTable rt =
      (db.getTable rt).map (fun t =>
        t.filter (fun id => decide (id < list_min latest)))) := by
  have hne : latest ≠ [] := by
    intro h
    rw [h] at hmis
    simp [List.dedup] at hmis
  have hlen : 0 < latest.length := by
    cases latest with
    | nil => exact absurd rfl hne
    | cons a l => simp
  have hdl : latest.dedup.length ≠ 1 := by omega
  refine ⟨?_, list_min_mem latest hne, list_min_le latest, ?_⟩
  · unfold align_progress
    rw [hget]
    simp [hlen, hdl]
  · intro rt
    rw [getTable_delete_from_result_tables]
    rfl

/-- Claim C3 witness: the spec example with latest ids 7, 9 and 5 across
three present tables (the fourth absent): the repair deletes every row
with id at least 5 from each table and resumes the queue at 5. -/
theorem C3_misaligned_repair_witness :
    align_progress [1, 2, 3, 4, 5, 6, 7, 8, 9, 10]
        { inputScenarios := [1, 2, 3, 4, 5, 6, 7, 8, 9, 10],
          refYear := some [1, 2, 3, 4, 5, 6, 7],
          optYear := some [1, 2, 3, 4, 5, 6, 7, 8, 9],
          refMonth := some [1, 2, 3, 4, 5],
          optMonth := none } =
      some ([5, 6, 7, 8, 9, 10],
        { inputScenarios := [1, 2, 3, 4, 5, 6, 7, 8, 9, 10],
          refYear := some [1, 2, 3, 4],
          optYear := some [1, 2, 3, 4],
          refMonth := some [1, 2, 3, 4],
          optMonth := none }) := by
  have h := C3_misaligned_repair [1, 2, 3, 4, 5, 6, 7, 8, 9, 10]
    { inputScenarios := [1, 2, 3, 4, 5, 6, 7, 8, 9, 10],
      refYear := some [1, 2, 3, 4, 5, 6, 7],
      optYear := some [1, 2, 3, 4, 5, 6, 7, 8, 9],
      refMonth := some [1, 2, 3, 4, 5],
      optMonth := none } [7, 9, 5] (by decide) (by decide)
  rw [h.1]
  decide

/-! ## Claim C4 -/

/-- The chunk size is positive whenever the universe is non-empty. -/
theorem ceilDiv_pos (T N : Nat) (hT : 1 ≤ T) (hN : 1 ≤ N) :
    1 ≤ ceilDiv T N := by
  unfold ceilDiv
  rw [Nat.le_div_iff_mul_le (by omega : 0 < N)]
  omega

/-- Membership in a non-last task range over the universe `1..T`. -/
theorem mem_task_range_filter_lt (T c n k id : Nat) (hk : k < n) :
    id ∈ task_range_filter (List.range' 1 T) c n k ↔
      (1 ≤ id ∧ id ≤ T ∧ 1 + c * (k - 1) ≤ id ∧ id ≤ c * k) := by
  unfold task_range_filter
  rw [if_pos hk]
  simp only [List.mem_filter, List.mem_range'_1, Bool.and_eq_true,
    decide_eq_true_eq]
  constructor
  · rintro ⟨⟨h1, h2⟩, h3, h4⟩
    exact ⟨h1, by omega, h3, h4⟩
  · rintro ⟨h1, h2, h3, h4⟩
    exact ⟨⟨h1, by omega⟩, h3, h4⟩

/-- Membership in the last task range over the universe `1..T`. -/
theorem mem_task_range_filter_last (T c n id : Nat) :
    id ∈ task_range_filter (List.range' 1 T) c n n ↔
      (1 ≤ id ∧ id ≤ T ∧ 1 + c * (n - 1) ≤ id) := by
  unfold task_range_filter
  rw [if_neg (Nat.lt_irrefl n)]
  simp only [List.mem_filter, List.mem_range'_1, decide_eq_true_eq]
  constructor
  · rintro ⟨⟨h1, h2⟩, h3⟩
    exact ⟨h1, by omega, h3⟩
  · rintro ⟨h1, h2, h3⟩
    exact ⟨⟨h1, by omega⟩, h3⟩

/-- Task membership for a non-last task, phrased on `split_task_ids`. -/
theorem mem_split_lt (T N k id : Nat) (hk : k < N) :
    id ∈ split_task_ids T N k ↔
      (1 ≤ id ∧ id ≤ T ∧
       1 + ceilDiv T N * (k - 1) ≤ id ∧ id ≤ ceilDiv T N * k) := by
  unfold split_task_ids
  exact mem_task_range_filter_lt T (ceilDiv T N) N k id hk

/-- Task membership for the last task, phrased on `split_task_ids`. -/
theorem mem_split_last (T N id : Nat) :
    id ∈ split_task_ids T N N ↔
      (1 ≤ id ∧ id ≤ T ∧ 1 + ceilDiv T N * (N - 1) ≤ id) := by
  unfold split_task_ids
  exact mem_task_range_filter_last T (ceilDiv T N) N id

/-- Claim C4: with chunk size the ceiling of `T / N`, `split_scenarios`
gives task `k < N` exactly the universe ids in the closed chunk range,
gives the last task every remaining id up to `T`, the tasks are pairwise
disjoint and cover `1..T` exactly once, and ids grow with the task
index. -/
theorem C4_partition_coverage (T N : Nat) (hT : 1 ≤ T) (hN : 1 ≤ N) :
    (∀ k, 1 ≤ k → k < N → ∀ id,
      id ∈ split_task_ids T N k ↔
        (1 ≤ id ∧ id ≤ T ∧
         1 + ceilDiv T N * (k - 1) ≤ id ∧ id ≤ ceilDiv T N * k)) ∧
    (∀ id, id ∈ split_task_ids T N N ↔
        (1 ≤ id ∧ id ≤ T ∧ 1 + ceilDiv T N * (N - 1) ≤ id)) ∧
    (∀ id, 1 ≤ id → id ≤ T →
      ∃! k, 1 ≤ k ∧ k ≤ N ∧ id ∈ split_task_ids T N k) ∧
    (∀ k j, 1 ≤ k → k < j → j ≤ N →
      ∀ a ∈ split_task_ids T N k, ∀ b ∈ split_task_ids T N j, a < b) := by
  have hc := ceilDiv_pos T N hT hN
  have hasc : ∀ k j, 1 ≤ k → k < j → j ≤ N →
      ∀ a ∈ split_task_ids T N k, ∀ b ∈ split_task_ids T N j, a < b := by
    intro k j hk1 hkj hjN a ha b hb
    have hkN : k < N := lt_of_lt_of_le hkj hjN
    have ha1 := (mem_split_lt T N k a hkN).mp ha
    have hmul : ceilDiv T N * k ≤ ceilDiv T N * (j - 1) :=
      Nat.mul_le_mul_left _ (by omega)
    rcases Nat.lt_or_ge j N with hj | hj
    · have hb1 := (mem_split_lt T N j b hj).mp hb
      have h3 := ha1.2.2.2
      have h4 := hb1.2.2.1
      omega
    · have hjN2 : j = N := by omega
      rw [hjN2] at hb
      have hb1 := (mem_split_last T N b).mp hb
      have hmul2 : ceilDiv T N * k ≤ ceilDiv T N * (N - 1) :=
        Nat.mul_le_mul_left _ (by omega)
      have h3 := ha1.2.2.2
      have h4 := hb1.2.2
      omega
  refine ⟨fun k _ hk id => mem_split_lt T N k id hk,
    fun id => mem_split_last T N id, ?_, hasc⟩
  intro id hid1 hidT
  obtain ⟨e, r, hdm, hr⟩ :
      ∃ e r, ceilDiv T N * e + r = id - 1 ∧ r < ceilDiv T N :=
    ⟨(id - 1) / ceilDiv T N, (id - 1) % ceilDiv T N, Nat.div_add_mod _ _,
      Nat.mod_lt _ (by omega)⟩
  rcases Nat.lt_or_ge (e + 1) N with he | he
  · have hmemA : id ∈ split_task_ids T N (e + 1) := by
      rw [mem_split_lt T N _ id he]
      have hsub : e + 1 - 1 = e := by omega
      rw [hsub]
      have hce : ceilDiv T N * (e + 1) = ceilDiv T N * e + ceilDiv T N :=
        Nat.mul_succ _ _
      omega
    refine ⟨e + 1, ⟨by omega, by omega, hmemA⟩, ?_⟩
    intro j hj
    by_contra hne
    rcases Nat.lt_or_ge j (e + 1) with hlt | hge
    · exact absurd (hasc j _ hj.1 hlt (by omega) id hj.2.2 id hmemA) (by omega)
    · exact absurd (hasc _ j (by omega) (by omega) hj.2.1 id hmemA id hj.2.2)
        (by omega)
  · have hmemN : id ∈ split_task_ids T N N := by
      rw [mem_split_last]
      have hmul : ceilDiv T N * (N - 1) ≤ ceilDiv T N * e :=
        Nat.mul_le_mul_left _ (by omega)
      omega
    refine ⟨N, ⟨hN, Nat.le_refl N, hmemN⟩, ?_⟩
    intro j hj
    by_contra hne
    exact absurd (hasc j N hj.1 (by omega) (Nat.le_refl N) id hj.2.2 id hmemN)
      (by omega)

/-- Claim C4 witness: the universe `1..10` split across three tasks has
chunk size 4, yielding the partitions `[1..4]`, `[5..8]`, `[9, 10]`, and
id 9 lies in exactly one task. -/
theorem C4_partition_coverage_witness :
    split_task_ids 10 3 1 = [1, 2, 3, 4] ∧
    split_task_ids 10 3 2 = [5, 6, 7, 8] ∧
    split_task_ids 10 3 3 = [9, 10] ∧
    (∃! k, 1 ≤ k ∧ k ≤ 3 ∧ 9 ∈ split_task_ids 10 3 k) :=
  ⟨by decide, by decide, by decide,
    (C4_partition_coverage 10 3 (by decide) (by decide)).2.2.1 9
      (by decide) (by decide)⟩

/-! ## Claims C5 and C6 -/

/-- Setting a slot then reading it gives the written value. -/
theorem getTable_setTable_same (db : Database) (rt : ResultTable)
    (t : Option (List Nat)) : (db.setTable rt t).getTable rt = t := by
  cases rt <;> rfl

/-- Setting one slot leaves every other slot unchanged. -/
theorem getTable_setTable_other (db : Database) (rt rt' : ResultTable)
    (t : Option (List Nat)) (h : rt ≠ rt') :
    (db.setTable rt' t).getTable rt = db.getTable rt := by
  cases rt <;> cases rt' <;> first | rfl | exact absurd rfl h

/-- Merging one table name does not touch the slot of a different table
name. -/
theorem mergeTable_getTable_other (tasks : List Database)
    (canonical : Database) (rt rt' : ResultTable) (h : rt ≠ rt') :
    (mergeTable tasks canonical rt').getTable rt = canonical.getTable rt := by
  unfold mergeTable
  by_cases hemp : (scanTables rt' tasks).isEmpty
  · simp [hemp]
  · simp [hemp, getTable_setTable_other _ _ _ _ h]

/-- When the scan found at least one table, the merge step writes the
concatenation of everything found into the canonical slot. -/
theorem mergeTable_getTable_found (tasks : List Database)
    (canonical : Database) (rt : ResultTable)
    (h : scanTables rt tasks ≠ []) :
    (mergeTable tasks canonical rt).getTable rt =
      some (scanTables rt tasks).flatten := by
  unfold mergeTable
  rw [if_neg (by simpa [List.isEmpty_iff] using h), getTable_setTable_same]

/-- The whole merge, projected to one table whose scan found at least one
partition table. -/
theorem merge_getTable_found (tasks : List Database) (canonical : Database)
    (rt : ResultTable) (h : scanTables rt tasks ≠ []) :
    (merge_year_month_tables tasks canonical).getTable rt =
      some (scanTables rt tasks).flatten := by
  cases rt with
  | RefYear =>
    show (mergeTable tasks (mergeTable tasks (mergeTable tasks
        (mergeTable tasks canonical ResultTable.RefYear)
        ResultTable.OptYear) ResultTable.RefMonth)
        ResultTable.OptMonth).getTable ResultTable.RefYear = _
    rw [mergeTable_getTable_other _ _ _ _ (by decide),
      mergeTable_getTable_other _ _ _ _ (by decide),
      mergeTable_getTable_other _ _ _ _ (by decide),
      mergeTable_getTable_found _ _ _ h]
  | OptYear =>
    show (mergeTable tasks (mergeTable tasks (mergeTable tasks
        (mergeTable tasks canonical ResultTable.RefYear)
        ResultTable.OptYear) ResultTable.RefMonth)
        ResultTable.OptMonth).getTable ResultTable.OptYear = _
    rw [mergeTable_getTable_other _ _ _ _ (by decide),
      mergeTable_getTable_other _ _ _ _ (by decide),
      mergeTable_getTable_found _ _ _ h]
  | RefMonth =>
    show (mergeTable tasks (mergeTable tasks (mergeTable tasks
        (mergeTable tasks canonical ResultTable.RefYear)
        ResultTable.OptYear) ResultTable.RefMonth)
        ResultTable.OptMonth).getTable ResultTable.RefMonth = _
    rw [mergeTable_getTable_other _ _ _ _ (by decide),
      mergeTable_getTable_found _ _ _ h]
  | OptMonth =>
    show (mergeTable tasks (mergeTable tasks (mergeTable tasks
        (mergeTable tasks canonical ResultTable.RefYear)
        ResultTable.OptYear) ResultTable.RefMonth)
        ResultTable.OptMonth).getTable ResultTable.OptMonth = _
    rw [mergeTable_getTable_found _ _ _ h]

/-- When every task database carries the table, the scan collects all of
them in task order. -/
theorem scanTables_all_present (rt : ResultTable) (tasks : List Database)
    (h : ∀ db ∈ tasks, (db.getTable rt).isSome) :
    scanTables rt tasks = tasks.map (fun db => (db.getTable rt).getD []) := by
  induction tasks with
  | nil => rfl
  | cons db rest ih =>
    obtain ⟨tbl, htbl⟩ :=
      Option.isSome_iff_exists.mp (h db (List.mem_cons_self _ _))
    simp [scanTables, htbl,
      ih (fun d hd => h d (List.mem_cons_of_mem _ hd))]

/-- When a prefix of task databases carries the table and the next one
does not, the scan stops at the gap and collects exactly the prefix. -/
theorem scanTables_break (rt : ResultTable) (pre : List Database)
    (gapDb : Database) (post : List Database)
    (hpre : ∀ db ∈ pre, (db.getTable rt).isSome)
    (hgap : gapDb.getTable rt = none) :
    scanTables rt (pre ++ gapDb :: post) =
      pre.map (fun db => (db.getTable rt).getD []) := by
  induction pre with
  | nil => simp [scanTables, hgap]
  | cons db rest ih =>
    obtain ⟨tbl, htbl⟩ :=
      Option.isSome_iff_exists.mp (hpre db (List.mem_cons_self _ _))
    simp [scanTables, htbl,
      ih (fun d hd => hpre d (List.mem_cons_of_mem _ hd))]

/-- Claim C6: when every task database carries the table, the merge
writes into the canonical database (whatever it held before) the
concatenation of the task tables in task-id order; if moreover the task
tables are duplicate-free with pairwise disjoint scenario ids, the merged
table is duplicate-free (one row per scenario id). -/
theorem C6_merge_concat (tasks : List Database) (canonical : Database)
    (rt : ResultTable) (hne : tasks ≠ [])
    (hall : ∀ db ∈ tasks, (db.getTable rt).isSome) :
    (merge_year_month_tables tasks canonical).getTable rt =
      some (tasks.map (fun db => (db.getTable rt).getD [])).flatten ∧
    ((∀ db ∈ tasks, ((db.getTable rt).getD []).Nodup) →
      List.Pairwise List.Disjoint
        (tasks.map (fun db => (db.getTable rt).getD [])) →
      ((tasks.map (fun db => (db.getTable rt).getD [])).flatten).Nodup) := by
  constructor
  · rw [merge_getTable_found tasks canonical rt
      (by rw [scanTables_all_present rt tasks hall]
          simpa [List.map_eq_nil_iff] using hne),
      scanTables_all_present rt tasks hall]
  · intro hnd hdisj
    rw [List.nodup_flatten]
    refine ⟨?_, hdisj⟩
    intro l hl
    obtain ⟨db, hdb, rfl⟩ := List.mem_map.mp hl
    exact hnd db hdb

/-- The three task databases of the C6 example, holding scenario ids
1..3, 4..6 and 7..9 in their yearly reference tables. -/
def mergeDbA : Database :=
  { inputScenarios := [], refYear := some [1, 2, 3], optYear := none,
    refMonth := none, optMonth := none }

def mergeDbB : Database :=
  { inputScenarios := [], refYear := some [4, 5, 6], optYear := none,
    refMonth := none, optMonth := none }

def mergeDbC : Database :=
  { inputScenarios := [], refYear := some [7, 8, 9], optYear := none,
    refMonth := none, optMonth := none }

/-- A canonical database holding a stale yearly reference table, to show
the merge replaces rather than appends. -/
def mergeCanonicalStale : Database :=
  { inputScenarios := [], refYear := some [41, 42], optYear := none,
    refMonth := none, optMonth := none }

/-- Claim C6 witness: merging partitions holding `{1,2,3}`, `{4,5,6}` and
`{7,8,9}` over a canonical table that previously held two other rows
yields exactly the nine rows 1..9 in partition order, duplicate-free. -/
theorem C6_merge_concat_witness :
    (merge_year_month_tables [mergeDbA, mergeDbB, mergeDbC]
        mergeCanonicalStale).getTable ResultTable.RefYear =
      some [1, 2, 3, 4, 5, 6, 7, 8, 9] ∧
    (([mergeDbA, mergeDbB, mergeDbC].map
        (fun db => (db.getTable ResultTable.RefYear).getD [])).flatten).Nodup := by
  have h := C6_merge_concat [mergeDbA, mergeDbB, mergeDbC]
    mergeCanonicalStale ResultTable.RefYear (by decide) (by decide)
  refine ⟨by rw [h.1]; decide, h.2 (by decide) ?_⟩
  simp [mergeDbA, mergeDbB, mergeDbC, Database.getTable, List.Disjoint]

/-- First task database of the C5 gap scenario: both yearly tables
present with the single scenario 1. -/
def gapDbFirst : Database :=
  { inputScenarios := [], refYear := some [1], optYear := some [1],
    refMonth := none, optMonth := none }

/-- Second task database of the C5 gap scenario: no result tables at all
(the gap). -/
def gapDbSecond : Database :=
  { inputScenarios := [], refYear := none, optYear := none,
    refMonth := none, optMonth := none }

/-- Claim C5 counterexample: with the yearly tables present in partition
1 but absent from partition 2, the merge does not abort — it writes the
partial concatenation (partition 1 alone) of the yearly reference table
into the canonical database, and it goes on to merge the yearly
optimization table as well, so neither the phase nor the run stops at the
gap. -/
theorem C5_merge_gap_counterexample :
    (merge_year_month_tables [gapDbFirst, gapDbSecond]
        emptyDatabase).getTable ResultTable.RefYear = some [1] ∧
    (merge_year_month_tables [gapDbFirst, gapDbSecond]
        emptyDatabase).getTable ResultTable.OptYear = some [1] := by
  decide

/-- Claim C5 amended: when a table is present in every partition database
before some partition and absent from that partition, the merge stops
scanning that table at the gap and writes to the canonical database the
concatenation of the partitions before the gap only; nothing is raised
and the rest of the merge (and the run) proceeds. -/
theorem C5_merge_gap_partial_write (pre : List Database) (gapDb : Database)
    (post : List Database) (canonical : Database) (rt : ResultTable)
    (hpre : ∀ db ∈ pre, (db.getTable rt).isSome)
    (hgap : gapDb.getTable rt = none) (hne : pre ≠ []) :
    (merge_year_month_tables (pre ++ gapDb :: post) canonical).getTable rt =
      some (pre.map (fun db => (db.getTable rt).getD [])).flatten := by
  rw [merge_getTable_found (pre ++ gapDb :: post) canonical rt
    (by rw [scanTables_break rt pre gapDb post hpre hgap]
        simpa [List.map_eq_nil_iff] using hne),
    scanTables_break rt pre gapDb post hpre hgap]

/-- Partition databases for the C5 witness: yearly reference tables
holding `[1,2]`, `[3]` and, after the gap, `[4]`. -/
def gapDbP1 : Database :=
  { inputScenarios := [], refYear := some [1, 2], optYear := none,
    refMonth := none, optMonth := none }

def gapDbP2 : Database :=
  { inputScenarios := [], refYear := some [3], optYear := none,
    refMonth := none, optMonth := none }

def gapDbP4 : Database :=
  { inputScenarios := [], refYear := some [4], optYear := none,
    refMonth := none, optMonth := none }

/-- Claim C5 witness: partitions holding `[1,2]` and `[3]` in the yearly
reference table, followed by a partition lacking the table and a later
partition holding `[4]`: the merge writes `[1,2,3]`, silently dropping
partition 4. -/
theorem C5_merge_gap_partial_write_witness :
    (merge_year_month_tables [gapDbP1, gapDbP2, gapDbSecond, gapDbP4]
        emptyDatabase).getTable ResultTable.RefYear = some [1, 2, 3] := by
  have h := C5_merge_gap_partial_write [gapDbP1, gapDbP2] gapDbSecond
    [gapDbP4] emptyDatabase ResultTable.RefYear
    (by decide) (by decide) (by decide)
  rw [show ([gapDbP1, gapDbP2] ++ gapDbSecond :: [gapDbP4]) =
    [gapDbP1, gapDbP2, gapDbSecond, gapDbP4] from rfl] at h
  rw [h]
  decide

/-! ## Claim C10 -/

/-- The flags collected for one task workspace are non-empty exactly when
the workspace holds a `.sqlite` file and its database holds at least one
result table. -/
theorem taskResultFlags_ne_nil (t : TaskWorkspace) :
    taskResultFlags t ≠ [] ↔
      (∃ f ∈ t.files, hasSqliteSuffix f = true) ∧
      ∃ rt ∈ DB_RESULT_TABLES, (t.db.getTable rt).isSome := by
  unfold taskResultFlags
  constructor
  · intro h
    rcases List.exists_mem_of_ne_nil _ h with ⟨b, hb⟩
    rcases List.mem_flatMap.mp hb with ⟨f, hf, hbf⟩
    rcases List.mem_map.mp hbf with ⟨rt, hrt, _⟩
    exact ⟨⟨f, (List.mem_filter.mp hf).1, (List.mem_filter.mp hf).2⟩,
      ⟨rt, (List.mem_filter.mp hrt).1, (List.mem_filter.mp hrt).2⟩⟩
  · rintro ⟨⟨f, hf, hsf⟩, ⟨rt, hrt, hprt⟩⟩ h
    have hfmem : f ∈ t.files.filter hasSqliteSuffix :=
      List.mem_filter.mpr ⟨hf, hsf⟩
    have hrtmem :
        rt ∈ DB_RESULT_TABLES.filter (fun rt => (t.db.getTable rt).isSome) :=
      List.mem_filter.mpr ⟨hrt, hprt⟩
    have hbmem : (true : Bool) ∈
        (t.files.filter hasSqliteSuffix).flatMap
          (fun _ => (DB_RESULT_TABLES.filter
            (fun rt => (t.db.getTable rt).isSome)).map (fun _ => true)) :=
      List.mem_flatMap.mpr ⟨f, hfmem, List.mem_map.mpr ⟨rt, hrtmem, rfl⟩⟩
    rw [h] at hbmem
    exact absurd hbmem (List.not_mem_nil _)

/-- Claim C10: `check_if_some_results_exist` returns true exactly when at
least one task workspace has a `.sqlite` file whose database holds at
least one of the four result tables; the collected list only ever holds
`True` entries (so the `all` can never fail on a non-empty list); and the
`multi` argument has no effect on the outcome. -/
theorem C10_check_results_exist (tasks : List TaskWorkspace) (m1 m2 : Nat) :
    (check_if_some_results_exist tasks m1 = true ↔
      ∃ t ∈ tasks, (∃ f ∈ t.files, hasSqliteSuffix f = true) ∧
        ∃ rt ∈ DB_RESULT_TABLES, (t.db.getTable rt).isSome) ∧
    (∀ b ∈ resultsExistList tasks, b = true) ∧
    check_if_some_results_exist tasks m1 =
      check_if_some_results_exist tasks m2 := by
  have hall : ∀ b ∈ resultsExistList tasks, b = true := by
    intro b hb
    rcases List.mem_flatMap.mp hb with ⟨t, _, hbt⟩
    unfold taskResultFlags at hbt
    rcases List.mem_flatMap.mp hbt with ⟨f, _, hbf⟩
    rcases List.mem_map.mp hbf with ⟨rt, _, hrtb⟩
    exact hrtb.symm
  refine ⟨?_, hall, rfl⟩
  unfold check_if_some_results_exist
  rw [Bool.and_eq_true, List.all_eq_true]
  constructor
  · rintro ⟨-, hlen⟩
    simp only [decide_eq_true_eq] at hlen
    have hne : resultsExistList tasks ≠ [] := by
      intro h0
      rw [h0] at hlen
      simp at hlen
    rcases List.exists_mem_of_ne_nil _ hne with ⟨b, hb⟩
    rcases List.mem_flatMap.mp hb with ⟨t, ht, hbt⟩
    have htne : taskResultFlags t ≠ [] := by
      intro h0
      rw [h0] at hbt
      exact absurd hbt (List.not_mem_nil _)
    exact ⟨t, ht, (taskResultFlags_ne_nil t).mp htne⟩
  · rintro ⟨t, ht, hprops⟩
    refine ⟨fun b hb => hall b hb, ?_⟩
    have hne : taskResultFlags t ≠ [] := (taskResultFlags_ne_nil t).mpr hprops
    rcases List.exists_mem_of_ne_nil _ hne with ⟨b, hb⟩
    have hbmem : b ∈ resultsExistList tasks :=
      List.mem_flatMap.mpr ⟨t, ht, hb⟩
    simp only [decide_eq_true_eq]
    exact List.length_pos.mpr (List.ne_nil_of_mem hbmem)

/-- Workspaces for the C10 witness: one empty task folder and one holding
a database with only the yearly reference table. -/
def wsEmpty : TaskWorkspace := { files := [], db := emptyDatabase }

def wsOneTable : TaskWorkspace :=
  { files := [".sqlite"],
    db := { inputScenarios := [], refYear := some [1], optYear := none,
            refMonth := none, optMonth := none } }

/-- Claim C10 witness: one partition with a single result table makes the
check succeed even though the other partition has nothing, and changing
`multi` changes nothing. -/
theorem C10_check_results_exist_witness :
    check_if_some_results_exist [wsEmpty, wsOneTable] 0 = true ∧
    check_if_some_results_exist [wsEmpty, wsOneTable] 0 =
      check_if_some_results_exist [wsEmpty, wsOneTable] 7 :=
  ⟨(C10_check_results_exist [wsEmpty, wsOneTable] 0 7).1.mpr
      ⟨wsOneTable, by decide, by decide, by decide⟩,
    (C10_check_results_exist [wsEmpty, wsOneTable] 0 7).2.2⟩

/-! ## Claim C7 -/

/-- A reference-solve exception aborts the scenario loop: with the
reference model enabled, successful solves before the failing scenario,
and a failing solve at scenario `i`, the loop result is that error,
whatever scenarios were queued afterwards. -/
theorem run_scenarios_ref_error (c : Collab) (fl : Flags)
    (hrr : fl.run_ref = true) (i : Nat) (e : String)
    (herr : c.refSolve i = Except.error e) :
    ∀ (q1 q2 : List Nat) (db : Database),
      (∀ j ∈ q1, c.refSolve j = Except.ok ()) →
      run_scenarios c fl (q1 ++ i :: q2) db = Except.error e := by
  intro q1
  induction q1 with
  | nil =>
    intro q2 db _
    simp [run_scenarios, run_ref_model, hrr, herr]
  | cons j rest ih =>
    intro q2 db hok
    have hj := hok j (List.mem_cons_self _ _)
    simp only [List.cons_append, run_scenarios, hrr, if_true, run_ref_model,
      hj]
    exact ih q2 _ (fun x hx => hok x (List.mem_cons_of_mem _ hx))

/-- Claim C7: (1) an exception from the reference solve propagates out of
the scenario loop, so no scenario after the failing one runs; (2) an
unsuccessful but non-throwing optimization solve writes nothing and the
loop simply continues with the remaining scenarios; (3) the optimization
collector is invoked (observable on the yearly optimization table)
exactly when the solve status reports success. -/
theorem C7_runner_failure_semantics (c : Collab) (fl : Flags) :
    (∀ (q1 : List Nat) (i : Nat) (q2 : List Nat) (db : Database) (e : String),
      fl.run_ref = true →
      (∀ j ∈ q1, c.refSolve j = Except.ok ()) →
      c.refSolve i = Except.error e →
      run_scenarios c fl (q1 ++ i :: q2) db = Except.error e) ∧
    (∀ (i : Nat) (rest : List Nat) (db : Database),
      (fl.run_ref = true → c.refSolve i = Except.ok ()) →
      c.optSolve i = false →
      run_scenarios c fl (i :: rest) db =
        run_scenarios c fl rest
          (if fl.run_ref then persistRef fl db i else db)) ∧
    (∀ (db : Database) (i : Nat), fl.save_year = true →
      ((run_opt_model c fl db i).optYear ≠ db.optYear ↔
        c.optSolve i = true)) := by
  refine ⟨fun q1 i q2 db e hrr hok herr =>
    run_scenarios_ref_error c fl hrr i e herr q1 q2 db hok, ?_, ?_⟩
  · intro i rest db hre hopt
    cases hrfl : fl.run_ref with
    | true =>
      have hok := hre hrfl
      simp only [run_scenarios, hrfl, if_true, run_ref_model, hok]
      cases hro : fl.run_opt <;> simp [run_opt_model, hopt]
    | false =>
      simp only [run_scenarios, hrfl, if_false, Bool.false_eq_true]
      cases hro : fl.run_opt <;> simp [run_opt_model, hopt]
  · intro db i hsy
    constructor
    · intro hne
      cases hos : c.optSolve i with
      | true => rfl
      | false =>
        rw [run_opt_model, hos] at hne
        simp at hne
    · intro htrue
      rw [run_opt_model, htrue]
      simp only [if_true, persistOpt, hsy]
      show appendRow db.optYear i ≠ db.optYear
      unfold appendRow
      cases hdb : db.optYear with
      | none => simp
      | some l =>
        simp only [Option.getD]
        intro hcontra
        have hlen : (l ++ [i]).length = l.length :=
          congrArg List.length (Option.some.inj hcontra)
        simp at hlen

/-- Collaborators for the C7 witness: the reference solve raises exactly
at scenario 2, the optimization solve succeeds exactly at odd
scenarios. -/
def witnessCollab : Collab :=
  { refSolve := fun id => if id = 2 then Except.error "boom" else Except.ok (),
    optSolve := fun id => decide (id % 2 = 1) }

/-- All four execution flags switched on. -/
def allFlags : Flags :=
  { run_ref := true, run_opt := true, save_year := true, save_month := true }

/-- Claim C7 witness: with the failing reference solve at scenario 2, the
loop over `[1, 2, 3]` is the error (scenario 3 never runs); a failed
optimization solve at scenario 4 steps the loop to the remainder after
only the reference write; a successful one at scenario 3 changes the
yearly optimization table. -/
theorem C7_runner_failure_semantics_witness :
    run_scenarios witnessCollab allFlags ([1] ++ 2 :: [3]) emptyDatabase =
      Except.error "boom" ∧
    run_scenarios witnessCollab allFlags (4 :: [5]) emptyDatabase =
      run_scenarios witnessCollab allFlags [5]
        (if allFlags.run_ref then persistRef allFlags emptyDatabase 4
         else emptyDatabase) ∧
    (run_opt_model witnessCollab allFlags emptyDatabase 3).optYear ≠
      emptyDatabase.optYear :=
  ⟨(C7_runner_failure_semantics witnessCollab allFlags).1 [1] 2 [3]
      emptyDatabase "boom" rfl
      (by intro j hj
          have hj1 : j = 1 := by simpa using hj
          rw [hj1]
          rfl)
      rfl,
    (C7_runner_failure_semantics witnessCollab allFlags).2.1 4 [5]
      emptyDatabase (fun _ => rfl) rfl,
    ((C7_runner_failure_semantics witnessCollab allFlags).2.2
      emptyDatabase 3 rfl).mpr rfl⟩

/-! ## Claims C8 and C9 -/

/-- The remaining folder of the cleanup, unfolded. -/
theorem delete_result_task_folders_dirs (folder : OutputFolder) :
    (delete_result_task_folders folder).1.dirs =
      (folder.dirs.map cleanupStep).filterMap Prod.fst := rfl

/-- The warning count of the cleanup, unfolded. -/
theorem delete_result_task_folders_warnings (folder : OutputFolder) :
    (delete_result_task_folders folder).2 =
      ((folder.dirs.map cleanupStep).filter (fun r => r.2)).length := rfl

/-- A file locked through all remaining attempts is reported undeleted,
after exactly that many attempts and as many one-second sleeps. -/
theorem delete_file_go_locked (a k : Nat) :
    delete_file_go a (FileBehavior.lockedFor (a + k)) = (false, a, a) := by
  induction a generalizing k with
  | zero => rfl
  | succ n ih =>
    have h1 : n + 1 + k = (n + k) + 1 := by omega
    rw [h1]
    simp only [delete_file_go]
    rw [ih k]

/-- A directory with an undeletable file survives the cleanup keeping
exactly its undeletable files, with the warning emitted. -/
theorem cleanupStep_locked (d : Dir) (hname : d.name ≠ "figure")
    (hlocked : ∃ f ∈ d.files, fileDeleted f = false) :
    cleanupStep d =
      (some { name := d.name,
              files := d.files.filter (fun f => !(fileDeleted f)) }, true) := by
  unfold cleanupStep processDir
  rw [if_neg hname]
  have hall : ¬ d.files.all fileDeleted = true := by
    rcases hlocked with ⟨f, hf, hdel⟩
    rw [List.all_eq_true]
    intro hforall
    have hft := hforall f hf
    rw [hdel] at hft
    exact absurd hft (by simp)
  rw [if_neg hall]

/-- A non-figure directory whose files all delete is removed. -/
theorem cleanupStep_all_deleted (d : Dir) (hname : d.name ≠ "figure")
    (hall : ∀ f ∈ d.files, fileDeleted f = true) :
    cleanupStep d = (none, false) := by
  unfold cleanupStep processDir
  rw [if_neg hname, if_pos (List.all_eq_true.mpr hall)]

/-- A directory surviving the cleanup keeps its name. -/
theorem cleanupStep_name (d d' : Dir) (h : (cleanupStep d).fst = some d') :
    d'.name = d.name := by
  unfold cleanupStep processDir at h
  by_cases hn : d.name = "figure"
  · rw [if_pos hn] at h
    cases h
    rfl
  · rw [if_neg hn] at h
    by_cases hall : d.files.all fileDeleted = true
    · rw [if_pos hall] at h
      cases h
    · rw [if_neg hall] at h
      cases h
      rfl

/-- With distinct directory names, a fully deletable non-figure directory
leaves no trace in the cleaned folder. -/
theorem cleanup_removes_all_deleted (folder : OutputFolder)
    (hnodup : (folder.dirs.map Dir.name).Nodup) (d : Dir)
    (hd : d ∈ folder.dirs) (hname : d.name ≠ "figure")
    (hall : ∀ f ∈ d.files, fileDeleted f = true) :
    ∀ d3 ∈ (delete_result_task_folders folder).1.dirs, d3.name ≠ d.name := by
  intro d3 hd3 heq
  rw [delete_result_task_folders_dirs] at hd3
  rcases List.mem_filterMap.mp hd3 with ⟨x, hx, hfst⟩
  rcases List.mem_map.mp hx with ⟨d4, hd4, rfl⟩
  have hn34 : d3.name = d4.name := cleanupStep_name d4 d3 hfst
  have hd42 : d4 = d :=
    List.inj_on_of_nodup_map hnodup hd4 hd (by rw [← hn34, heq])
  rw [hd42, cleanupStep_all_deleted d hname hall] at hfst
  cases hfst

/-- Claim C8 counterexample folder: task folder 1 holds one deletable file
and one permanently locked file; task folder 2 holds one deletable
file. -/
def cleanupFolderEx : OutputFolder :=
  { topFiles := ["result.sqlite"],
    dirs := [{ name := "task_1",
               files := [FileBehavior.lockedFor 0, FileBehavior.lockedFor 9] },
             { name := "task_2", files := [FileBehavior.lockedFor 1] }] }

/-- Claim C8 counterexample: cleanup of the folder above does skip
removing `task_1` and removes `task_2`, but `task_1` is not left intact:
its deletable file is gone and only the locked file remains, so the
directory contents were partially deleted. -/
theorem C8_cleanup_counterexample :
    delete_result_task_folders cleanupFolderEx =
      ({ topFiles := ["result.sqlite"],
         dirs := [{ name := "task_1",
                    files := [FileBehavior.lockedFor 9] }] }, 1) ∧
    ({ name := "task_1", files := [FileBehavior.lockedFor 9] } : Dir) ≠
      { name := "task_1",
        files := [FileBehavior.lockedFor 0, FileBehavior.lockedFor 9] } := by
  refine ⟨?_, by decide⟩
  decide

/-- Claim C8 amended: a directory with a file that fails deletion through
all 5 attempts (each PermissionError followed by the fixed one-second
backoff) is not removed — it survives holding exactly its undeletable
files (the deletable ones are gone, so it is not left intact) — a warning
is counted, nothing aborts, top-level files are untouched, and, given
distinct directory names, every other non-figure directory whose files
all deleted is removed. -/
theorem C8_cleanup_skip_locked (folder : OutputFolder) (d : Dir)
    (hd : d ∈ folder.dirs) (hname : d.name ≠ "figure")
    (hlocked : ∃ f ∈ d.files, fileDeleted f = false) :
    ({ name := d.name,
       files := d.files.filter (fun f => !(fileDeleted f)) } : Dir) ∈
      (delete_result_task_folders folder).1.dirs ∧
    1 ≤ (delete_result_task_folders folder).2 ∧
    (delete_result_task_folders folder).1.topFiles = folder.topFiles ∧
    (∀ k, delete_file (FileBehavior.lockedFor (max_attempts + k)) =
      (false, max_attempts, max_attempts)) ∧
    ((folder.dirs.map Dir.name).Nodup →
      ∀ d2 ∈ folder.dirs, d2.name ≠ "figure" →
      (∀ f ∈ d2.files, fileDeleted f = true) →
      ∀ d3 ∈ (delete_result_task_folders folder).1.dirs,
        d3.name ≠ d2.name) := by
  have hstep := cleanupStep_locked d hname hlocked
  refine ⟨?_, ?_, rfl, fun k => delete_file_go_locked max_attempts k, ?_⟩
  · rw [delete_result_task_folders_dirs]
    exact List.mem_filterMap.mpr
      ⟨cleanupStep d, List.mem_map_of_mem _ hd, by rw [hstep]⟩
  · rw [delete_result_task_folders_warnings]
    have hm : cleanupStep d ∈
        (folder.dirs.map cleanupStep).filter (fun r => r.2) :=
      List.mem_filter.mpr ⟨List.mem_map_of_mem _ hd, by rw [hstep]⟩
    exact List.length_pos.mpr (List.ne_nil_of_mem hm)
  · intro hnodup d2 hd2 hname2 hall2
    exact cleanup_removes_all_deleted folder hnodup d2 hd2 hname2 hall2

/-- Claim C8 witness: in the counterexample folder, the surviving
`task_1` holds exactly the locked file, one warning is counted, and a
file locked forever fails after exactly the 5 bounded attempts with 5
seconds of backoff. -/
theorem C8_cleanup_skip_locked_witness :
    ({ name := "task_1", files := [FileBehavior.lockedFor 9] } : Dir) ∈
      (delete_result_task_folders cleanupFolderEx).1.dirs ∧
    1 ≤ (delete_result_task_folders cleanupFolderEx).2 ∧
    delete_file (FileBehavior.lockedFor (max_attempts + 4)) =
      (false, max_attempts, max_attempts) := by
  have h := C8_cleanup_skip_locked cleanupFolderEx
    { name := "task_1",
      files := [FileBehavior.lockedFor 0, FileBehavior.lockedFor 9] }
    (by decide) (by decide) ⟨FileBehavior.lockedFor 9, by decide, by decide⟩
  exact ⟨h.1, h.2.1, h.2.2.2.1 4⟩

/-- Claim C9 counterexample folder: the canonical output folder holds one
top-level file and one subdirectory named `misc` that is not a task
folder (and not `figure`). -/
def miscFolder : OutputFolder :=
  { topFiles := ["canonical.sqlite"],
    dirs := [{ name := "misc", files := [FileBehavior.lockedFor 0] }] }

/-- Claim C9 counterexample: cleanup deletes the non-task subdirectory
`misc` (with its file), so task subfolders are not the only deletion
candidates; the top-level file is untouched. -/
theorem C9_cleanup_counterexample :
    delete_result_task_folders miscFolder =
      ({ topFiles := ["canonical.sqlite"], dirs := [] }, 0) := by
  decide

/-- Claim C9 amended: cleanup never touches the top-level files of the
canonical output folder and preserves any `figure` subdirectory, but its
deletion candidates are all other subdirectories, not only the task
folders: given distinct names, every non-figure subdirectory whose files
all delete is removed, whatever its name. -/
theorem C9_cleanup_frame (folder : OutputFolder) :
    (delete_result_task_folders folder).1.topFiles = folder.topFiles ∧
    (∀ d ∈ folder.dirs, d.name = "figure" →
      d ∈ (delete_result_task_folders folder).1.dirs) ∧
    ((folder.dirs.map Dir.name).Nodup →
      ∀ d ∈ folder.dirs, d.name ≠ "figure" →
      (∀ f ∈ d.files, fileDeleted f = true) →
      ∀ d3 ∈ (delete_result_task_folders folder).1.dirs,
        d3.name ≠ d.name) := by
  refine ⟨rfl, ?_, ?_⟩
  · intro d hd hfig
    rw [delete_result_task_folders_dirs]
    refine List.mem_filterMap.mpr
      ⟨cleanupStep d, List.mem_map_of_mem _ hd, ?_⟩
    unfold cleanupStep
    rw [if_pos hfig]
  · intro hnodup d hd hname hall
    exact cleanup_removes_all_deleted folder hnodup d hd hname hall

/-- The C9 witness folder: a `figure` subdirectory plus a deletable
non-task subdirectory. -/
def frameFolder : OutputFolder :=
  { topFiles := ["db.sqlite"],
    dirs := [{ name := "figure", files := [FileBehavior.lockedFor 0] },
             { name := "plots_old", files := [FileBehavior.lockedFor 0] }] }

/-- Claim C9 witness: top-level files survive, the `figure` folder
survives, and the deletable non-task folder `plots_old` leaves no
trace. -/
theorem C9_cleanup_frame_witness :
    (delete_result_task_folders frameFolder).1.topFiles = ["db.sqlite"] ∧
    ({ name := "figure", files := [FileBehavior.lockedFor 0] } : Dir) ∈
      (delete_result_task_folders frameFolder).1.dirs ∧
    ∀ d3 ∈ (delete_result_task_folders frameFolder).1.dirs,
      d3.name ≠ "plots_old" := by
  refine ⟨by rw [(C9_cleanup_frame frameFolder).1]; rfl, ?_, ?_⟩
  · exact (C9_cleanup_frame frameFolder).2.1 _ (by decide) rfl
  · exact (C9_cleanup_frame frameFolder).2.2 (by decide)
      { name := "plots_old", files := [FileBehavior.lockedFor 0] }
      (by decide) (by decide) (by decide)

/-! ## Claim C2 -/

/-- After a full cleanup the task folders hold no files, so the reuse
check fails and the pipeline re-partitions. -/
theorem check_replicate_none (n m : Nat) :
    check_if_some_results_exist
      ((List.replicate n (none : Option Database)).map toWorkspace) m =
      false := by
  have h : ∀ k, resultsExistList
      ((List.replicate k (none : Option Database)).map toWorkspace) = [] := by
    intro k
    induction k with
    | zero => rfl
    | succ j ih =>
      rw [List.replicate_succ, List.map_cons]
      show taskResultFlags (toWorkspace none) ++
        resultsExistList ((List.replicate j none).map toWorkspace) = []
      rw [ih]
      rfl
  unfold check_if_some_results_exist
  rw [h n]
  rfl

/-- Splitting a row of identical task databases filters each copy by its
own task id. -/
theorem split_tasks_go_replicate (c n : Nat) (C : Database) :
    ∀ (m s : Nat),
      split_tasks_go c n s (List.replicate m (some C)) =
        (List.range' s m).map (fun k =>
          some { C with
            inputScenarios := task_range_filter C.inputScenarios c n k }) := by
  intro m
  induction m with
  | zero => intro s; rfl
  | succ j ih =>
    intro s
    rw [List.replicate_succ, List.range'_succ]
    show (some { C with
        inputScenarios := task_range_filter C.inputScenarios c n s }) ::
      split_tasks_go c n (s + 1) (List.replicate j (some C)) = _
    rw [ih (s + 1)]
    rfl

/-- Every result table of the fully merged canonical database reports `T`
as its latest scenario id, whatever input table the copy carries. -/
theorem get_latest_merged (T : Nat) (hT : 1 ≤ T) (q : List Nat) :
    get_latest_scenario_ids
      { mergedCanonical T with inputScenarios := q } = some [T, T, T, T] := by
  have hlast : (List.range' 1 T).getLast? = some T := by
    rw [List.getLast?_range', if_neg (by omega)]
    congr 1
    omega
  unfold get_latest_scenario_ids DB_RESULT_TABLES
  simp [collect_latest_ids, Database.getTable, mergedCanonical, hlast]

/-- The scenario loop with an always-succeeding reference solve appends
the queue, in order, to the yearly reference table. -/
theorem run_scenarios_refYear (c : Collab) (fl : Flags)
    (href : ∀ id, c.refSolve id = Except.ok ())
    (hrr : fl.run_ref = true) (hsy : fl.save_year = true) :
    ∀ (q : List Nat) (db : Database) (l : List Nat),
      db.refYear = some l →
      ∃ db', run_scenarios c fl q db = Except.ok db' ∧
        db'.refYear = some (l ++ q) := by
  intro q
  induction q with
  | nil =>
    intro db l hdb
    exact ⟨db, rfl, by rw [hdb]; simp⟩
  | cons id rest ih =>
    intro db l hdb
    have hstep : run_scenarios c fl (id :: rest) db =
        run_scenarios c fl rest
          (if fl.run_opt then run_opt_model c fl (persistRef fl db id) id
           else persistRef fl db id) := by
      simp [run_scenarios, hrr, run_ref_model, href id]
    have hpr : (persistRef fl db id).refYear = some (l ++ [id]) := by
      simp [persistRef, hsy, appendRow, hdb]
    have hry : (if fl.run_opt then run_opt_model c fl (persistRef fl db id) id
        else persistRef fl db id).refYear = some (l ++ [id]) := by
      cases hro : fl.run_opt with
      | false => simpa using hpr
      | true =>
        simp only [if_true]
        unfold run_opt_model
        cases hos : c.optSolve id with
        | false => simpa using hpr
        | true => simpa [persistOpt] using hpr
    rcases ih _ _ hry with ⟨db', hrun, hdb'⟩
    refine ⟨db', by rw [hstep, hrun], ?_⟩
    rw [hdb']
    simp

/-- Scenario id 1 always lands in the first partition. -/
theorem one_mem_first_task (T n : Nat) (hT : 1 ≤ T) (hn : 1 ≤ n) :
    1 ∈ split_task_ids T n 1 := by
  have hc := ceilDiv_pos T n hT hn
  rcases Nat.lt_or_ge 1 n with h1 | h1
  · rw [mem_split_lt T n 1 1 h1]
    refine ⟨Nat.le_refl 1, hT, by simp, by simpa using hc⟩
  · have hn1 : n = 1 := by omega
    rw [hn1]
    rw [mem_split_last]
    exact ⟨Nat.le_refl 1, hT, by simp⟩

/-- One worker over a copy of the fully merged canonical database: the
four latest ids agree (all `T`), so `align_progress` leaves the queue
untrimmed, and the worker re-runs its whole partition, appending it to
the already-full yearly reference table. -/
theorem worker_on_merged_copy (c : Collab) (fl : Flags)
    (href : ∀ id, c.refSolve id = Except.ok ())
    (hrr : fl.run_ref = true) (hsy : fl.save_year = true)
    (T : Nat) (hT : 1 ≤ T) (q : List Nat) :
    ∃ db', run_operation_model c fl
        { mergedCanonical T with inputScenarios := q } = Except.ok db' ∧
      db'.refYear = some (List.range' 1 T ++ q) := by
  have hlatest := get_latest_merged T hT q
  have hone : ([T, T, T, T] : List Nat).dedup.length = 1 := by
    rw [dedup_of_all_eq [T, T, T, T] T (by simp) (by intro x hx; simpa using hx)]
    rfl
  have halign := align_progress_aligned q
    { mergedCanonical T with inputScenarios := q } [T, T, T, T] hlatest hone
  rcases run_scenarios_refYear c fl href hrr hsy q
      { mergedCanonical T with inputScenarios := q }
      (List.range' 1 T) rfl with ⟨db', hrun, hdb'⟩
  refine ⟨db', ?_, hdb'⟩
  unfold run_operation_model
  rw [show ({ mergedCanonical T with
      inputScenarios := q } : Database).inputScenarios = q from rfl, halign]
  exact hrun

/-- Running all workers over copies of the fully merged canonical
database succeeds and yields, per partition queue, a database whose
yearly reference table is the full table plus the re-run partition. -/
theorem run_all_tasks_merged (c : Collab) (fl : Flags)
    (href : ∀ id, c.refSolve id = Except.ok ())
    (hrr : fl.run_ref = true) (hsy : fl.save_year = true)
    (T : Nat) (hT : 1 ≤ T) :
    ∀ qs : List (List Nat),
      ∃ ds', run_all_tasks c fl
          (qs.map (fun q =>
            some { mergedCanonical T with inputScenarios := q })) =
          Except.ok ds' ∧
        List.Forall₂ (fun q d' =>
          d'.refYear = some (List.range' 1 T ++ q)) qs ds' := by
  intro qs
  induction qs with
  | nil => exact ⟨[], rfl, List.Forall₂.nil⟩
  | cons q rest ih =>
    rcases worker_on_merged_copy c fl href hrr hsy T hT q with ⟨d', hrun, hd'⟩
    rcases ih with ⟨ds', hall, hfa⟩
    refine ⟨d' :: ds', ?_, List.Forall₂.cons hd' hfa⟩
    show run_all_tasks c fl
      (some { mergedCanonical T with inputScenarios := q } ::
        rest.map (fun q =>
          some { mergedCanonical T with inputScenarios := q })) = _
    unfold run_all_tasks
    rw [hrun, hall]

/-- Projection of the per-worker facts to what the merge needs. -/
theorem forall2_refYear_facts (T : Nat) :
    ∀ (qs : List (List Nat)) (ds' : List Database),
      List.Forall₂ (fun q d' =>
        d'.refYear = some (List.range' 1 T ++ q)) qs ds' →
      (∀ d ∈ ds', (d.getTable ResultTable.RefYear).isSome) ∧
      ds'.map (fun d => (d.getTable ResultTable.RefYear).getD []) =
        qs.map (fun q => List.range' 1 T ++ q) := by
  intro qs ds' h
  induction h with
  | nil => exact ⟨by simp, rfl⟩
  | @cons q d' restq restd hqd hrest ih =>
    refine ⟨?_, ?_⟩
    · intro d hd
      rcases List.mem_cons.mp hd with h1 | h2
      · rw [h1]
        show (d'.refYear).isSome
        rw [hqd]
        rfl
      · exact ih.1 d h2
    · show (fun d => (d.getTable ResultTable.RefYear).getD []) d' ::
        restd.map (fun d => (d.getTable ResultTable.RefYear).getD []) = _
      rw [ih.2]
      show (d'.refYear).getD [] :: _ = _
      rw [hqd]
      rfl

/-- Collaborators whose reference solve always succeeds and whose
optimization solve always reports success. -/
def allOkCollab : Collab :=
  { refSolve := fun _ => Except.ok (), optSolve := fun _ => true }

/-- Claim C2 counterexample: re-running the pipeline with two tasks over
the fully merged canonical state for scenarios `1..2`, with no reset and
all solves succeeding, leaves the yearly reference table with 6 rows
instead of 2 — far from zero additional rows.  (Each task database starts
as a copy of the canonical one holding rows `[1, 2]`; the aligned
`align_progress` does not trim the queue, each worker re-appends its
partition, and the merge concatenates both task tables.) -/
theorem C2_rerun_counterexample :
    (run_operation_model_parallel allOkCollab allFlags 2 false
        (mergedState 2 2)).map
      (fun st => st.canonical.refYear.map List.length) =
      Except.ok (some 6) ∧ (6 : Nat) ≠ 2 :=
  ⟨rfl, by decide⟩

/-- Claim C2 amended: re-running the pipeline with identical inputs and
no reset over a fully merged, aligned canonical state is not a no-op.
The reuse check fails (the task folders are empty after cleanup), so the
canonical database — result tables included — is re-copied into every
task folder; each worker finds its four tables aligned at `T`, so
`align_progress` leaves its queue untrimmed and the worker re-executes
its whole partition on top of the copied rows; the merge then replaces
the canonical yearly reference table with the concatenation of the `N`
task tables, which holds strictly more than the original `T` rows (namely
`N` copies of `1..T` plus every partition re-run). -/
theorem C2_rerun_appends (c : Collab) (fl : Flags) (T n : Nat)
    (hT : 1 ≤ T) (hn : 1 ≤ n)
    (href : ∀ id, c.refSolve id = Except.ok ())
    (hrr : fl.run_ref = true) (hsy : fl.save_year = true) :
    ∃ st', run_operation_model_parallel c fl n false (mergedState T n) =
        Except.ok st' ∧
      ∃ tbl, st'.canonical.getTable ResultTable.RefYear = some tbl ∧
        T < tbl.length ∧
        tbl = ((List.range' 1 n).map (fun k =>
          List.range' 1 T ++ split_task_ids T n k)).flatten := by
  rcases run_all_tasks_merged c fl href hrr hsy T hT
      ((List.range' 1 n).map (fun k => split_task_ids T n k)) with
    ⟨ds', hrun, hfa⟩
  have hfacts := forall2_refYear_facts T _ ds' hfa
  have htasks : (split_scenarios n (create_task_dbs n (mergedState T n))).tasks =
      ((List.range' 1 n).map (fun k => split_task_ids T n k)).map
        (fun q => some { mergedCanonical T with inputScenarios := q }) := by
    show split_tasks_go
        (ceilDiv (mergedCanonical T).inputScenarios.length n) n 1
        (List.replicate n (some (mergedCanonical T))) = _
    rw [show (mergedCanonical T).inputScenarios = List.range' 1 T from rfl,
      List.length_range',
      split_tasks_go_replicate (ceilDiv T n) n (mergedCanonical T) n 1,
      List.map_map]
    rfl
  have hpipe : run_operation_model_parallel c fl n false (mergedState T n) =
      Except.ok
        { canonical := merge_year_month_tables ds' (mergedCanonical T),
          tasks := List.replicate n none } := by
    unfold run_operation_model_parallel
    rw [show (mergedState T n).tasks = List.replicate n none from rfl,
      check_replicate_none n (multiplier fl)]
    simp only [Bool.not_false, Bool.true_or, if_true]
    rw [htasks, hrun]
    rfl
  refine ⟨_, hpipe, ?_⟩
  have hne : ds' ≠ [] := by
    intro h0
    have hlen := hfa.length_eq
    rw [h0] at hlen
    simp only [List.length_map, List.length_range', List.length_nil] at hlen
    omega
  have hscan : scanTables ResultTable.RefYear ds' =
      ds'.map (fun d => (d.getTable ResultTable.RefYear).getD []) :=
    scanTables_all_present _ _ hfacts.1
  have hmerge := merge_getTable_found ds' (mergedCanonical T)
    ResultTable.RefYear
    (by rw [hscan]; simpa [List.map_eq_nil_iff] using hne)
  rw [hscan, hfacts.2, List.map_map] at hmerge
  simp only [Function.comp_def] at hmerge
  refine ⟨_, hmerge, ?_, rfl⟩
  obtain ⟨m, rfl⟩ : ∃ m, n = m + 1 := ⟨n - 1, by omega⟩
  rw [List.range'_succ, List.map_cons, List.flatten_cons]
  simp only [List.length_append, List.length_range']
  have h1 : 1 ≤ (split_task_ids T (m + 1) 1).length :=
    List.length_pos.mpr
      (List.ne_nil_of_mem (one_mem_first_task T (m + 1) hT hn))
  omega

/-- Claim C2 witness: the amended theorem evaluated at two scenarios and
two tasks with all-success collaborators. -/
theorem C2_rerun_appends_witness :
    ∃ st', run_operation_model_parallel allOkCollab allFlags 2 false
        (mergedState 2 2) = Except.ok st' ∧
      ∃ tbl, st'.canonical.getTable ResultTable.RefYear = some tbl ∧
        2 < tbl.length ∧
        tbl = ((List.range' 1 2).map (fun k =>
          List.range' 1 2 ++ split_task_ids 2 2 k)).flatten :=
  C2_rerun_appends allOkCollab allFlags 2 2 (by decide) (by decide)
    (fun _ => rfl) rfl rfl

end Cooling
